import Mathlib

/-!
Verification of the TFRCTPowerClient protocol engine
(src/src/TFRCTPowerClient.cpp) against its specification.

The C++ source is shallowly embedded: machine integers become `Nat`
(with explicit masking where the code masks or where overflow matters),
the linked wait queue becomes a `List`, the callback of a transaction is
represented by a token (a `Nat`) identifying it, and invoking a callback
is represented by emitting an `Event` carrying that token.  Float values
are represented by their 32-bit IEEE-754 bit pattern (`Option Nat`, with
`none` standing for the C `NAN` argument).
-/

namespace TFRCTPower

/-- Transaction results, from `TFRCTPowerClientTransactionResult`. -/
inductive TransactionResult where
  | Success
  | InvalidArgument
  | Aborted
  | NoTransactionAvailable
  | NotConnected
  | DisconnectedByPeer
  | SendFailed
  | ReceiveFailed
  | Timeout
  | ChecksumMismatch
deriving DecidableEq, Repr

/-- Disconnect reasons used by this client, from `TFGenericTCPClientDisconnectReason`
(declared outside this repository; only the constructors used here are modelled). -/
inductive DisconnectReason where
  | SocketSendFailed
  | SocketReceiveFailed
  | DisconnectedByPeer
deriving DecidableEq, Repr

/-- One step of the inner bit loop of `crc16ccitt` on the code's 32-bit
accumulator: read bit 15, shift left (as `uint32_t`, i.e. mod 2^32),
conditionally XOR the polynomial 0x1021. -/
def crcBit32 (acc : Nat) (bit : Bool) : Nat :=
  if (decide ((acc >>> 15) &&& 1 = 1)) ^^ bit then
    ((acc <<< 1) % 2 ^ 32) ^^^ 0x1021
  else
    (acc <<< 1) % 2 ^ 32

/-- The inner 8-bit loop of `crc16ccitt` for one input byte, most
significant bit first (`buffer[i] >> (7 - k) & 1`). -/
def crcByte32 (acc b : Nat) : Nat :=
  (List.range 8).foldl (fun a k => crcBit32 a (decide ((b >>> (7 - k)) &&& 1 = 1))) acc

/-- The checksum function `crc16ccitt` exactly as in the code: 32-bit
accumulator initialised to 0xFFFF, per-byte inner bit loop, accumulator
masked with 0xFFFF after each byte, and the final result masked with 0xFFFF. -/
def crc16ccitt (bytes : List Nat) : Nat :=
  (bytes.foldl (fun a b => crcByte32 a b &&& 0xFFFF) 0xFFFF) &&& 0xFFFF

/-- One bit step of the specification's CRC16/CCITT-FALSE: a 16-bit
accumulator (shift left is taken mod 2^16). -/
def crcBit16 (acc : Nat) (bit : Bool) : Nat :=
  if (decide ((acc >>> 15) &&& 1 = 1)) ^^ bit then
    ((acc <<< 1) % 2 ^ 16) ^^^ 0x1021
  else
    (acc <<< 1) % 2 ^ 16

/-- One byte of the specification's CRC16/CCITT-FALSE, bits most
significant first. -/
def crcByte16 (acc b : Nat) : Nat :=
  (List.range 8).foldl (fun a k => crcBit16 a (decide ((b >>> (7 - k)) &&& 1 = 1))) acc

/-- CRC16/CCITT-FALSE as stated by the specification: 16-bit accumulator
initialised to 0xFFFF, no masking needed beyond the 16-bit width. -/
def crc16spec (bytes : List Nat) : Nat :=
  bytes.foldl crcByte16 0xFFFF

lemma xor_mod_two_pow (a b n : Nat) :
    (a ^^^ b) % 2 ^ n = (a % 2 ^ n) ^^^ (b % 2 ^ n) := by
  apply Nat.eq_of_testBit_eq
  intro i
  simp only [Nat.testBit_mod_two_pow, Nat.testBit_xor]
  by_cases h : i < n <;> simp [h]

lemma testBit15_mod (a : Nat) : (a % 2 ^ 16).testBit 15 = a.testBit 15 := by
  rw [Nat.testBit_mod_two_pow]
  simp

lemma crcBit16_lt (acc : Nat) (bit : Bool) :
    crcBit16 acc bit < 2 ^ 16 := by
  unfold crcBit16
  have h1 : (acc <<< 1) % 2 ^ 16 < 2 ^ 16 := Nat.mod_lt _ (by norm_num)
  split
  · exact Nat.xor_lt_two_pow h1 (by norm_num)
  · exact h1

lemma crcByte16_lt (acc b : Nat) (h : acc < 2 ^ 16) :
    crcByte16 acc b < 2 ^ 16 := by
  unfold crcByte16
  generalize List.range 8 = ks
  induction ks generalizing acc with
  | nil => exact h
  | cons k ks ih => exact ih _ (crcBit16_lt _ _)

lemma crcBit_mod (acc32 acc16 : Nat) (bit : Bool)
    (h : acc32 % 2 ^ 16 = acc16 % 2 ^ 16) :
    crcBit32 acc32 bit % 2 ^ 16 = crcBit16 acc16 bit % 2 ^ 16 := by
  have hbit : acc32.testBit 15 = acc16.testBit 15 := by
    rw [← testBit15_mod acc32, ← testBit15_mod acc16, h]
  have hc15 : (acc32 >>> 15) &&& 1 = (acc16 >>> 15) &&& 1 := by
    rw [Nat.and_one_is_mod, Nat.and_one_is_mod, Nat.shiftRight_eq_div_pow,
      Nat.shiftRight_eq_div_pow, ← Nat.toNat_testBit, ← Nat.toNat_testBit, hbit]
  have hshift : ((acc32 <<< 1) % 2 ^ 32) % 2 ^ 16 = ((acc16 <<< 1) % 2 ^ 16) % 2 ^ 16 := by
    rw [Nat.mod_mod_of_dvd _ (by norm_num : (2:Nat) ^ 16 ∣ 2 ^ 32), Nat.mod_mod,
      Nat.shiftLeft_eq, Nat.shiftLeft_eq, Nat.mul_mod, h, ← Nat.mul_mod]
  have hcond : (decide ((acc32 >>> 15) &&& 1 = 1)) = (decide ((acc16 >>> 15) &&& 1 = 1)) := by
    rw [hc15]
  unfold crcBit32 crcBit16
  rw [hcond]
  split
  · rw [xor_mod_two_pow, xor_mod_two_pow, hshift]
  · exact hshift

lemma crcBits_mod (ks : List Nat) (b : Nat) :
    ∀ acc32 acc16, acc32 % 2 ^ 16 = acc16 % 2 ^ 16 →
    (ks.foldl (fun a k => crcBit32 a (decide ((b >>> (7 - k)) &&& 1 = 1))) acc32) % 2 ^ 16 =
    (ks.foldl (fun a k => crcBit16 a (decide ((b >>> (7 - k)) &&& 1 = 1))) acc16) % 2 ^ 16 := by
  induction ks with
  | nil => intro acc32 acc16 h; exact h
  | cons k ks ih =>
    intro acc32 acc16 h
    exact ih _ _ (crcBit_mod _ _ _ h)

lemma crcByte_mod (acc32 acc16 b : Nat) (h : acc32 % 2 ^ 16 = acc16 % 2 ^ 16) :
    crcByte32 acc32 b % 2 ^ 16 = crcByte16 acc16 b % 2 ^ 16 :=
  crcBits_mod _ _ _ _ h

lemma mask_eq_mod (x : Nat) : x &&& 0xFFFF = x % 2 ^ 16 := by
  have h : (0xFFFF : Nat) = 2 ^ 16 - 1 := by norm_num
  rw [h, Nat.and_pow_two_sub_one_eq_mod]

lemma crc_fold_mod (bytes : List Nat) :
    ∀ acc32 acc16, acc32 % 2 ^ 16 = acc16 % 2 ^ 16 → acc16 < 2 ^ 16 →
    (bytes.foldl (fun a b => crcByte32 a b &&& 0xFFFF) acc32) &&& 0xFFFF =
    bytes.foldl crcByte16 acc16 := by
  induction bytes with
  | nil =>
    intro acc32 acc16 h hlt
    simp only [List.foldl_nil]
    rw [mask_eq_mod, h, Nat.mod_eq_of_lt hlt]
  | cons b bs ih =>
    intro acc32 acc16 h hlt
    simp only [List.foldl_cons]
    apply ih
    · rw [mask_eq_mod, Nat.mod_mod]
      rw [crcByte_mod acc32 acc16 b h]
    · exact crcByte16_lt _ _ hlt

set_option maxRecDepth 8000 in
/-- C2: the code's `crc16ccitt` (32-bit accumulator, per-byte masking)
computes, on every byte sequence, exactly the 16-bit CRC16/CCITT-FALSE of
the specification (accumulator 0xFFFF, MSB-first bits, polynomial 0x1021),
and the checksum of the ASCII bytes "123456789" is 0x29B1. -/
theorem crc16ccitt_correct :
    (∀ bytes : List Nat, crc16ccitt bytes = crc16spec bytes) ∧
    crc16ccitt [0x31, 0x32, 0x33, 0x34, 0x35, 0x36, 0x37, 0x38, 0x39] = 0x29B1 := by
  constructor
  · intro bytes
    unfold crc16ccitt crc16spec
    exact crc_fold_mod bytes 0xFFFF 0xFFFF rfl (by norm_num)
  · have h := crc_fold_mod [0x31, 0x32, 0x33, 0x34, 0x35, 0x36, 0x37, 0x38, 0x39]
      0xFFFF 0xFFFF rfl (by norm_num)
    unfold crc16ccitt
    rw [h]
    decide

/-- The frame start marker byte, the character `'+'` (0x2B). -/
def startByte : Nat := 0x2B

/-- The escape marker byte, the character `'-'` (0x2D). -/
def escapeMarker : Nat := 0x2D

/-- The 8-byte raw request frame built in `tick_hook`:
`[command=1, length=4, id byte 3, id byte 2, id byte 1, id byte 0, crcHi, crcLo]`
with the CRC computed over the first 6 bytes (`crc16ccitt(request, 6)`). -/
def encode_request (id : Nat) : List Nat :=
  let header : List Nat := [1, 4, (id >>> 24) &&& 0xFF, (id >>> 16) &&& 0xFF,
    (id >>> 8) &&& 0xFF, (id >>> 0) &&& 0xFF]
  let checksum : Nat := crc16ccitt header
  header ++ [(checksum >>> 8) &&& 0xFF, (checksum >>> 0) &&& 0xFF]

/-- Escaping of one raw byte as described by the specification: a byte that
equals either marker is preceded by the escape marker. -/
def escapeOne (b : Nat) : List Nat :=
  if b = startByte ∨ b = escapeMarker then [escapeMarker, b] else [b]

/-- The escaping loop of `tick_hook`, verbatim: the wire buffer starts with
the start marker `"+"`; each raw byte equal to `'+'` or `'-'` is preceded by
an extra `'-'`; every raw byte is then emitted. -/
def escape_loop (raw : List Nat) : List Nat :=
  raw.foldl
    (fun out b =>
      if b = startByte ∨ b = escapeMarker then out ++ [escapeMarker, b] else out ++ [b])
    [startByte]

/-- Decoder state of `receive_hook` relevant to byte-stream parsing:
the `wait_for_start` flag, the one byte of lookback `last_received_byte`,
and the response buffer (`pending_response` together with
`pending_response_used`, as a list). -/
structure DecodeState where
  wait_for_start : Bool
  last_received_byte : Nat
  pending_response : List Nat
deriving DecidableEq, Repr

/-- The byte-at-a-time escape handling of `receive_hook` (lines 217–241):
while waiting for a start, only an unescaped `'+'` leaves the searching
state; otherwise `'+'` after `'-'` is a literal, `'+'` alone restarts the
buffer, `'-'` after `'-'` is a literal, `'-'` alone is remembered only via
`last_received_byte`, and any other byte is appended.  `last_received_byte`
is always updated to the received byte. -/
def unescape_step (s : DecodeState) (b : Nat) : DecodeState :=
  if s.wait_for_start then
    if b = startByte ∧ s.last_received_byte ≠ escapeMarker then
      ⟨false, b, s.pending_response⟩
    else
      ⟨true, b, s.pending_response⟩
  else if b = startByte then
    if s.last_received_byte = escapeMarker then
      ⟨false, b, s.pending_response ++ [b]⟩
    else
      ⟨false, b, []⟩
  else if b = escapeMarker then
    if s.last_received_byte = escapeMarker then
      ⟨false, b, s.pending_response ++ [b]⟩
    else
      ⟨false, b, s.pending_response⟩
  else
    ⟨false, b, s.pending_response ++ [b]⟩

/-- Running the unescape step over a byte sequence. -/
def unescape_run (s : DecodeState) (bytes : List Nat) : DecodeState :=
  bytes.foldl unescape_step s

/-- Last element of a list, with a default for the empty list; used to track
the decoder's `last_received_byte` across a run. -/
def lastOf (last : Nat) : List Nat → Nat
  | [] => last
  | b :: rest => lastOf b rest

/-- Decodability condition for the code's lookback-based unescaping: walking
the raw bytes, a raw escape-marker byte must never be followed by a raw
marker byte (and if the previous byte before the list was the escape marker,
the first byte must not be a marker byte). -/
def goodFromB : Nat → List Nat → Bool
  | _, [] => true
  | last, b :: rest =>
    decide (last = escapeMarker → b ≠ startByte ∧ b ≠ escapeMarker) && goodFromB b rest

/-- The id assembled big-endian from bytes 2–5 of a frame, as in
`receive_hook` lines 253–256. -/
def decodeId (bytes : List Nat) : Nat :=
  ((bytes.getD 2 0) <<< 24) ||| ((bytes.getD 3 0) <<< 16) |||
  ((bytes.getD 4 0) <<< 8) ||| (bytes.getD 5 0)

lemma escape_loop_spec_general (raw : List Nat) : ∀ init : List Nat,
    raw.foldl
      (fun out b =>
        if b = startByte ∨ b = escapeMarker then out ++ [escapeMarker, b] else out ++ [b])
      init
    = init ++ (raw.map escapeOne).flatten := by
  induction raw with
  | nil => intro init; simp
  | cons b rest ih =>
    intro init
    simp only [List.foldl_cons, List.map_cons, List.flatten_cons]
    rw [ih]
    by_cases hb : b = startByte ∨ b = escapeMarker
    · simp [escapeOne, hb, List.append_assoc]
    · simp [escapeOne, hb, List.append_assoc]

lemma escape_loop_spec (raw : List Nat) :
    escape_loop raw = startByte :: (raw.map escapeOne).flatten := by
  unfold escape_loop
  rw [escape_loop_spec_general]
  rfl

lemma unescape_step_ordinary (l b : Nat) (p : List Nat)
    (h1 : b ≠ startByte) (h2 : b ≠ escapeMarker) :
    unescape_step ⟨false, l, p⟩ b = ⟨false, b, p ++ [b]⟩ := by
  simp [unescape_step, h1, h2]

lemma unescape_step_escape_first (l : Nat) (p : List Nat) (hl : l ≠ escapeMarker) :
    unescape_step ⟨false, l, p⟩ escapeMarker = ⟨false, escapeMarker, p⟩ := by
  have h1 : escapeMarker ≠ startByte := by decide
  simp [unescape_step, h1, hl]

lemma unescape_step_escaped_literal (p : List Nat) (b : Nat)
    (hb : b = startByte ∨ b = escapeMarker) :
    unescape_step ⟨false, escapeMarker, p⟩ b = ⟨false, b, p ++ [b]⟩ := by
  have h1 : escapeMarker ≠ startByte := by decide
  rcases hb with hb | hb
  · subst hb
    simp [unescape_step]
  · subst hb
    simp [unescape_step, h1]

lemma unescape_marker_pair (l b : Nat) (p : List Nat)
    (hb : b = startByte ∨ b = escapeMarker) (hl : l ≠ escapeMarker) :
    unescape_run ⟨false, l, p⟩ [escapeMarker, b] = ⟨false, b, p ++ [b]⟩ := by
  unfold unescape_run
  simp only [List.foldl_cons, List.foldl_nil]
  rw [unescape_step_escape_first l p hl, unescape_step_escaped_literal p b hb]

lemma unescape_escaped_body (raw : List Nat) : ∀ (last : Nat) (acc : List Nat),
    goodFromB last raw = true →
    unescape_run ⟨false, last, acc⟩ ((raw.map escapeOne).flatten)
      = ⟨false, lastOf last raw, acc ++ raw⟩ := by
  induction raw with
  | nil => intro last acc _; simp [unescape_run, lastOf]
  | cons b rest ih =>
    intro last acc hgood
    simp only [goodFromB, Bool.and_eq_true, decide_eq_true_eq] at hgood
    obtain ⟨hhead, htail⟩ := hgood
    simp only [List.map_cons, List.flatten_cons]
    unfold unescape_run
    rw [List.foldl_append]
    by_cases hb : b = startByte ∨ b = escapeMarker
    · have hl : last ≠ escapeMarker := by
        intro hlast
        rcases hb with hb | hb
        · exact (hhead hlast).1 hb
        · exact (hhead hlast).2 hb
      have hstep : List.foldl unescape_step ⟨false, last, acc⟩ (escapeOne b)
          = ⟨false, b, acc ++ [b]⟩ := by
        rw [escapeOne, if_pos hb]
        exact unescape_marker_pair last b acc hb hl
      rw [hstep]
      have := ih b (acc ++ [b]) htail
      unfold unescape_run at this
      rw [this, List.append_assoc]
      rfl
    · push_neg at hb
      have hstep : List.foldl unescape_step ⟨false, last, acc⟩ (escapeOne b)
          = ⟨false, b, acc ++ [b]⟩ := by
        rw [escapeOne, if_neg (by tauto)]
        simp only [List.foldl_cons, List.foldl_nil]
        exact unescape_step_ordinary last b acc hb.1 hb.2
      rw [hstep]
      have := ih b (acc ++ [b]) htail
      unfold unescape_run at this
      rw [this, List.append_assoc]
      rfl

lemma mask8_eq_mod (x : Nat) : x &&& 0xFF = x % 2 ^ 8 := by
  have h : (0xFF : Nat) = 2 ^ 8 - 1 := by norm_num
  rw [h, Nat.and_pow_two_sub_one_eq_mod]

lemma or_eq_add_chain (a b n : Nat) (ha : a % 2 ^ n = 0) (hb : b < 2 ^ n) :
    a ||| b = a + b := by
  obtain ⟨c, hc⟩ : 2 ^ n ∣ a := Nat.dvd_of_mod_eq_zero ha
  subst hc
  rw [← Nat.mul_add_lt_is_or hb]

lemma decode_encode (id : Nat) (hid : id < 2 ^ 32) :
    decodeId (encode_request id) = id := by
  have hb2 : (encode_request id).getD 2 0 = (id >>> 24) &&& 0xFF := rfl
  have hb3 : (encode_request id).getD 3 0 = (id >>> 16) &&& 0xFF := rfl
  have hb4 : (encode_request id).getD 4 0 = (id >>> 8) &&& 0xFF := rfl
  have hb5 : (encode_request id).getD 5 0 = (id >>> 0) &&& 0xFF := rfl
  unfold decodeId
  rw [hb2, hb3, hb4, hb5]
  rw [Nat.shiftRight_zero]
  rw [mask8_eq_mod, mask8_eq_mod, mask8_eq_mod, mask8_eq_mod]
  rw [Nat.shiftRight_eq_div_pow, Nat.shiftRight_eq_div_pow, Nat.shiftRight_eq_div_pow]
  rw [Nat.shiftLeft_eq, Nat.shiftLeft_eq, Nat.shiftLeft_eq]
  have h2 : id / 2 ^ 16 % 2 ^ 8 * 2 ^ 16 < 2 ^ 24 := by
    have h1 : id / 2 ^ 16 % 2 ^ 8 < 2 ^ 8 := Nat.mod_lt _ (by norm_num)
    calc id / 2 ^ 16 % 2 ^ 8 * 2 ^ 16 < 2 ^ 8 * 2 ^ 16 :=
          (Nat.mul_lt_mul_right (by norm_num)).mpr h1
      _ = 2 ^ 24 := by norm_num
  have h3 : id / 2 ^ 8 % 2 ^ 8 * 2 ^ 8 < 2 ^ 16 := by
    have h1 : id / 2 ^ 8 % 2 ^ 8 < 2 ^ 8 := Nat.mod_lt _ (by norm_num)
    calc id / 2 ^ 8 % 2 ^ 8 * 2 ^ 8 < 2 ^ 8 * 2 ^ 8 :=
          (Nat.mul_lt_mul_right (by norm_num)).mpr h1
      _ = 2 ^ 16 := by norm_num
  have d24 : id / 2 ^ 24 % 2 ^ 8 * 2 ^ 24 % 2 ^ 24 = 0 := Nat.mul_mod_left _ _
  have d16 : (id / 2 ^ 24 % 2 ^ 8 * 2 ^ 24 + id / 2 ^ 16 % 2 ^ 8 * 2 ^ 16) % 2 ^ 16 = 0 := by
    apply Nat.mod_eq_zero_of_dvd
    exact dvd_add (dvd_mul_of_dvd_right (pow_dvd_pow 2 (by norm_num)) _) (dvd_mul_left _ _)
  have d8 : (id / 2 ^ 24 % 2 ^ 8 * 2 ^ 24 + id / 2 ^ 16 % 2 ^ 8 * 2 ^ 16
      + id / 2 ^ 8 % 2 ^ 8 * 2 ^ 8) % 2 ^ 8 = 0 := by
    apply Nat.mod_eq_zero_of_dvd
    apply dvd_add
    apply dvd_add
    · exact dvd_mul_of_dvd_right (pow_dvd_pow 2 (by norm_num)) _
    · exact dvd_mul_of_dvd_right (pow_dvd_pow 2 (by norm_num)) _
    · exact dvd_mul_left _ _
  rw [or_eq_add_chain _ _ 24 d24 h2]
  rw [or_eq_add_chain _ _ 16 d16 h3]
  rw [or_eq_add_chain _ _ 8 d8 (Nat.mod_lt _ (by norm_num))]
  omega

set_option maxRecDepth 40000 in
/-- C1 (counterexample): for the 32-bit transaction id 0x002D2D00, the raw
request frame contains the escape-marker byte 0x2D immediately followed by
another 0x2D; the decoder's lookback-based unescape step then treats the
appended literal `'-'` as an escape marker for the following wire byte, so
decoding the escaped bytes produced by `tick_hook` does not reproduce the
8 raw frame bytes. -/
theorem roundtrip_counterexample :
    0x002D2D00 < 2 ^ 32 ∧
    (unescape_run ⟨true, 0, []⟩ (escape_loop (encode_request 0x002D2D00))).pending_response
      ≠ encode_request 0x002D2D00 := by
  constructor
  · decide
  · decide

set_option maxRecDepth 40000 in
/-- C1 (amended): for every 32-bit transaction id X whose 8-byte raw request
frame never has the byte 0x2D immediately followed by one of the two marker
bytes (0x2B or 0x2D), running the escaped wire bytes produced by `tick_hook`
through the unescape step of `receive_hook` reproduces exactly the original
8 raw frame bytes, and reassembling bytes 2–5 big-endian reproduces X. -/
theorem roundtrip_amended (id : Nat) (hid : id < 2 ^ 32)
    (hgood : goodFromB startByte (encode_request id) = true) :
    (unescape_run ⟨true, 0, []⟩ (escape_loop (encode_request id))).pending_response
      = encode_request id ∧
    decodeId (encode_request id) = id := by
  constructor
  · rw [escape_loop_spec]
    unfold unescape_run
    simp only [List.foldl_cons]
    have hstart : unescape_step ⟨true, 0, []⟩ startByte = ⟨false, startByte, []⟩ := by
      simp [unescape_step, startByte, escapeMarker]
    rw [hstart]
    have h := unescape_escaped_body (encode_request id) startByte [] hgood
    unfold unescape_run at h
    rw [h]
    simp
  · exact decode_encode id hid

set_option maxRecDepth 40000 in
/-- Witness for `roundtrip_amended` at the concrete id 0x12345678. -/
theorem roundtrip_amended_witness :
    (0x12345678 < 2 ^ 32 ∧ goodFromB startByte (encode_request 0x12345678) = true) ∧
    ((unescape_run ⟨true, 0, []⟩ (escape_loop (encode_request 0x12345678))).pending_response
      = encode_request 0x12345678 ∧
     decodeId (encode_request 0x12345678) = 0x12345678) :=
  ⟨⟨by decide, by decide⟩, roundtrip_amended 0x12345678 (by decide) (by decide)⟩

/-- C9: for every transaction id, the raw request frame built by `tick_hook`
is exactly the 8 bytes `[command=1, length=4, id byte 3, id byte 2,
id byte 1, id byte 0, crcHi, crcLo]` with the id big-endian and the CRC
computed over the first 6 bytes, and the wire buffer transmitted is the
START marker byte followed by, for each raw byte, ESCAPE then the byte if
the byte equals START or ESCAPE, else the byte alone. -/
theorem encode_request_spec (id : Nat) :
    encode_request id
      = [1, 4, (id >>> 24) &&& 0xFF, (id >>> 16) &&& 0xFF, (id >>> 8) &&& 0xFF,
         (id >>> 0) &&& 0xFF,
         (crc16ccitt ((encode_request id).take 6) >>> 8) &&& 0xFF,
         (crc16ccitt ((encode_request id).take 6) >>> 0) &&& 0xFF] ∧
    escape_loop (encode_request id)
      = startByte :: ((encode_request id).map escapeOne).flatten := by
  constructor
  · rfl
  · exact escape_loop_spec _

/-- A transaction as allocated by `read` (`TFRCTPowerClientTransaction`):
the register id, the timeout, and a token standing for the identity of the
heap-allocated transaction and its callback.  The `next` pointer of the
C++ struct is absorbed into the list structure of the wait queue. -/
structure Transaction where
  id : Nat
  timeout : Int
  token : Nat
deriving DecidableEq, Repr

/-- One invocation of a transaction callback: which callback (by token),
the result, and the reported value as an IEEE-754 bit pattern (`none`
stands for the C `NAN` argument). -/
structure Event where
  token : Nat
  result : TransactionResult
  value : Option Nat
deriving DecidableEq, Repr

/-- Modelled from the spec: the wait-queue capacity
`TF_RCT_POWER_CLIENT_MAX_SCHEDULED_TRANSACTION_COUNT` is declared in
TFRCTPowerClient.h, which is not among the sources; the specification
bounds the queue by "a fixed maximum capacity (constant, e.g. 8)". -/
def MAX_SCHEDULED_TRANSACTION_COUNT : Nat := 8

/-- Modelled from the spec: `calculate_deadline` comes from the TFNetwork
support library, not among the sources; the specification defines the
absolute deadline as `now() + timeout`, captured at promotion. -/
def calculate_deadline (now timeout : Int) : Int := now + timeout

/-- Modelled from the spec: `deadline_elapsed` comes from the TFNetwork
support library, not among the sources; the specification declares a
transaction timed out once the absolute deadline has been reached. -/
def deadline_elapsed (now deadline : Int) : Bool := decide (deadline ≤ now)

/-- Modelled from the spec: the response buffer capacity
(`sizeof(pending_response)`) is declared in the header, not among the
sources; the specification fixes it at 12 bytes
(1 command + 1 length + 4 id + 4 float + 2 checksum). -/
def RESPONSE_LENGTH : Nat := 12

/-- The full client state: socket, wait queue (`scheduled_transaction_head`
linked list, head first), pending transaction and deadline, decoder state,
beacon-detector state, and the allocator counter `next_token` standing for
the freshness of `new TFRCTPowerClientTransaction` (each allocation yields
a token never used before). -/
structure ClientState where
  socket_fd : Int
  scheduled_transactions : List Transaction
  pending_transaction : Option Transaction
  pending_transaction_deadline : Int
  decode : DecodeState
  bootloader_magic_number : Nat
  bootloader_last_detected : Int
  next_token : Nat
deriving DecidableEq, Repr

/-- `finish_pending_transaction`: if a pending transaction exists, move its
callback out, destroy it, clear the pending slot and deadline, and only
then invoke the callback with the given result and value. -/
def finish_pending_transaction (s : ClientState) (result : TransactionResult)
    (value : Option Nat) : ClientState × List Event :=
  match s.pending_transaction with
  | none => (s, [])
  | some t =>
      ({ s with pending_transaction := none, pending_transaction_deadline := 0 },
       [⟨t.token, result, value⟩])

/-- `finish_all_transactions`: finish the pending transaction, then finish
every scheduled transaction in queue order, with the given result. -/
def finish_all_transactions (s : ClientState) (result : TransactionResult) :
    ClientState × List Event :=
  let p := finish_pending_transaction s result none
  ({ p.1 with scheduled_transactions := [] },
   p.2 ++ p.1.scheduled_transactions.map (fun t => ⟨t.token, result, none⟩))

/-- `reset_pending_response`: return the decoder to the searching state
with an empty buffer (`wait_for_start = true`, `pending_response_used = 0`);
`last_received_byte` is not touched. -/
def reset_pending_response (s : ClientState) : ClientState :=
  { s with decode := ⟨true, s.decode.last_received_byte, []⟩ }

/-- `TFRCTPowerClient::read` (the submit operation): no callback means no
effect at all; a negative timeout, a disconnected socket, or a full wait
queue reject synchronously with a distinct result; otherwise a fresh
transaction is appended at the queue tail. -/
def read (s : ClientState) (id : Nat) (timeout : Int) (has_callback : Bool) :
    ClientState × List Event :=
  if has_callback then
    let tok := s.next_token
    let s1 := { s with next_token := tok + 1 }
    if timeout < 0 then
      (s1, [⟨tok, TransactionResult.InvalidArgument, none⟩])
    else if s.socket_fd < 0 then
      (s1, [⟨tok, TransactionResult.NotConnected, none⟩])
    else if MAX_SCHEDULED_TRANSACTION_COUNT ≤ s.scheduled_transactions.length then
      (s1, [⟨tok, TransactionResult.NoTransactionAvailable, none⟩])
    else
      ({ s1 with scheduled_transactions := s.scheduled_transactions ++ [⟨id, timeout, tok⟩] },
       [])
  else
    (s, [])

/-- `close_hook`: clear the lookback byte and the beacon state, reset the
decoder, and finish every outstanding transaction with Aborted. -/
def close_hook (s : ClientState) : ClientState × List Event :=
  let s1 := { s with
    decode := ⟨s.decode.wait_for_start, 0, s.decode.pending_response⟩,
    bootloader_magic_number := 0,
    bootloader_last_detected := 0 }
  finish_all_transactions (reset_pending_response s1) TransactionResult.Aborted

/-- `check_pending_transaction_timeout`: if a pending transaction exists
and its deadline has elapsed, finish it with Timeout. -/
def check_pending_transaction_timeout (s : ClientState) (now : Int) :
    ClientState × List Event :=
  match s.pending_transaction with
  | some _ =>
      if deadline_elapsed now s.pending_transaction_deadline then
        finish_pending_transaction s TransactionResult.Timeout none
      else (s, [])
  | none => (s, [])

/-- Output of one `tick_hook` invocation: the new state, the callback
invocations, the wire bytes handed to `send` (if a promotion happened), and
the escalated disconnect reason (if the send failed). -/
structure TickResult where
  state : ClientState
  events : List Event
  sent : Option (List Nat)
  disconnect : Option DisconnectReason
deriving DecidableEq, Repr

/-- `tick_hook`: first check the pending-transaction timeout; then, if no
transaction is pending and the wait queue is non-empty, promote the queue
head to pending, compute its deadline from its timeout relative to now,
encode and escape its request and transmit it; a send failure finishes the
promoted transaction with SendFailed and escalates a disconnect.
`send_ok` is the boolean outcome of the non-blocking `send`. -/
def tick_hook (s : ClientState) (now : Int) (send_ok : Bool) : TickResult :=
  let p := check_pending_transaction_timeout s now
  match p.1.pending_transaction, p.1.scheduled_transactions with
  | none, t :: rest =>
      let s2 := { p.1 with
        pending_transaction := some t,
        scheduled_transactions := rest,
        pending_transaction_deadline := calculate_deadline now t.timeout }
      let wire := escape_loop (encode_request t.id)
      if send_ok then
        ⟨s2, p.2, some wire, none⟩
      else
        let q := finish_pending_transaction s2 TransactionResult.SendFailed none
        ⟨q.1, p.2 ++ q.2, some wire, some DisconnectReason.SocketSendFailed⟩
  | _, _ => ⟨p.1, p.2, none, none⟩

/-- The eager validation after each received byte: the first buffered byte
must be the response command 5 and the second the response length 8;
otherwise the decoder is reset to searching. -/
def post_validate (s : ClientState) : ClientState :=
  if s.decode.pending_response.length = 1 ∧ s.decode.pending_response.getD 0 0 ≠ 5 then
    reset_pending_response s
  else if s.decode.pending_response.length = 2 ∧ s.decode.pending_response.getD 1 0 ≠ 8 then
    reset_pending_response s
  else
    s

/-- One received byte as handled inside the `receive_hook` loop: update the
beacon shift register (32-bit, so mod 2^32) and its detection time, run the
unescape step, then apply the eager command/length validation. -/
def process_byte (s : ClientState) (now : Int) (b : Nat) : ClientState :=
  post_validate { s with
    bootloader_magic_number := ((s.bootloader_magic_number <<< 8) ||| b) % 2 ^ 32,
    bootloader_last_detected :=
      if ((s.bootloader_magic_number <<< 8) ||| b) % 2 ^ 32 = 0x50F705AB then now
      else s.bootloader_last_detected,
    decode := unescape_step s.decode b }

/-- The float value decoded from bytes 6–9 of a response frame, as a 32-bit
IEEE-754 bit pattern assembled big-endian (byte 6 most significant), as the
union copy in `receive_hook` does on the little-endian target. -/
def decodeValue (bytes : List Nat) : Nat :=
  ((bytes.getD 6 0) <<< 24) ||| ((bytes.getD 7 0) <<< 16) |||
  ((bytes.getD 8 0) <<< 8) ||| (bytes.getD 9 0)

/-- The expected checksum read big-endian from the last two bytes of the
response buffer, as `receive_hook` does. -/
def expectedChecksum (bytes : List Nat) : Nat :=
  ((bytes.getD (bytes.length - 2) 0) <<< 8) ||| (bytes.getD (bytes.length - 1) 0)

/-- Validation of a complete candidate frame (`receive_hook` lines 253–291):
extract the big-endian id from bytes 2–5; with no pending transaction or a
different pending id, silently discard the frame and reset the decoder;
with a checksum mismatch over all but the last two bytes, reset the decoder
and finish the pending transaction with ChecksumMismatch; otherwise reset
the decoder and finish it with Success carrying the decoded float. -/
def handle_complete_frame (s : ClientState) : ClientState × List Event :=
  let resp := s.decode.pending_response
  let id := decodeId resp
  match s.pending_transaction with
  | none => (reset_pending_response s, [])
  | some t =>
      if t.id ≠ id then
        (reset_pending_response s, [])
      else if crc16ccitt (resp.take (resp.length - 2)) ≠ expectedChecksum resp then
        finish_pending_transaction (reset_pending_response s)
          TransactionResult.ChecksumMismatch none
      else
        finish_pending_transaction (reset_pending_response s)
          TransactionResult.Success (some (decodeValue resp))

/-- A run of `receive_hook` invocations draining the given bytes: each byte
is processed by the loop body; whenever the response buffer reaches its
full length the loop condition fails, the complete frame is validated and
the decoder reset, exactly as one `receive_hook` invocation does before
returning (the remaining bytes are then consumed by the next invocation,
which this function continues with directly). -/
def receive_run (s : ClientState) (now : Int) : List Nat → ClientState × List Event
  | [] => (s, [])
  | b :: rest =>
      let s1 := process_byte s now b
      if s1.decode.pending_response.length = RESPONSE_LENGTH then
        let p := handle_complete_frame s1
        let q := receive_run p.1 now rest
        (q.1, p.2 ++ q.2)
      else
        receive_run s1 now rest

/-- One externally driven entry-point invocation: submit, outbound tick,
inbound receive, teardown, or a socket-state change performed by the owning
connection layer (which manages `socket_fd` outside this file's code). -/
inductive Op where
  | opRead (id : Nat) (timeout : Int) (has_callback : Bool)
  | opTick (now : Int) (send_ok : Bool)
  | opReceive (now : Int) (bytes : List Nat)
  | opClose
  | opSetSocket (fd : Int)
deriving DecidableEq, Repr

/-- Dispatch one entry-point invocation, returning the new state and the
callback invocations it performed. -/
def step (s : ClientState) : Op → ClientState × List Event
  | Op.opRead id timeout hcb => read s id timeout hcb
  | Op.opTick now send_ok =>
      let r := tick_hook s now send_ok
      (r.state, r.events)
  | Op.opReceive now bytes => receive_run s now bytes
  | Op.opClose => close_hook s
  | Op.opSetSocket fd => ({ s with socket_fd := fd }, [])

/-- Run a sequence of entry-point invocations, concatenating the callback
invocations in order. -/
def run (s : ClientState) : List Op → ClientState × List Event
  | [] => (s, [])
  | op :: ops =>
      let p := step s op
      let q := run p.1 ops
      (q.1, p.2 ++ q.2)

/-- The fresh client state: not connected, no transactions, decoder
searching, beacon state cleared, no tokens allocated yet. -/
def initState : ClientState :=
  ⟨-1, [], none, 0, ⟨true, 0, []⟩, 0, 0, 0⟩

/-- C4: `read` rejects — leaving the wait queue unchanged and creating no
queue entry — exactly when the callback is absent (silently), the timeout
is negative (InvalidArgument), the transport is not connected
(NotConnected), or the wait queue holds the maximum number of transactions
(NoTransactionAvailable), each rejection reporting its distinct result
synchronously through the callback; otherwise a new transaction is
appended at the queue tail. -/
theorem read_submit_spec (s : ClientState) (id : Nat) (timeout : Int) :
    (read s id timeout false = (s, [])) ∧
    (timeout < 0 →
      read s id timeout true
        = ({ s with next_token := s.next_token + 1 },
           [⟨s.next_token, TransactionResult.InvalidArgument, none⟩])) ∧
    (0 ≤ timeout → s.socket_fd < 0 →
      read s id timeout true
        = ({ s with next_token := s.next_token + 1 },
           [⟨s.next_token, TransactionResult.NotConnected, none⟩])) ∧
    (0 ≤ timeout → 0 ≤ s.socket_fd →
      MAX_SCHEDULED_TRANSACTION_COUNT ≤ s.scheduled_transactions.length →
      read s id timeout true
        = ({ s with next_token := s.next_token + 1 },
           [⟨s.next_token, TransactionResult.NoTransactionAvailable, none⟩])) ∧
    (0 ≤ timeout → 0 ≤ s.socket_fd →
      s.scheduled_transactions.length < MAX_SCHEDULED_TRANSACTION_COUNT →
      read s id timeout true
        = ({ s with
              scheduled_transactions :=
                s.scheduled_transactions ++ [⟨id, timeout, s.next_token⟩],
              next_token := s.next_token + 1 },
           [])) := by
  refine ⟨rfl, ?_, ?_, ?_, ?_⟩
  · intro h
    simp [read, h]
  · intro h1 h2
    have h3 : ¬ timeout < 0 := by omega
    simp [read, h3, h2]
  · intro h1 h2 h3
    have h4 : ¬ timeout < 0 := by omega
    have h5 : ¬ s.socket_fd < 0 := by omega
    simp [read, h4, h5, h3]
  · intro h1 h2 h3
    have h4 : ¬ timeout < 0 := by omega
    have h5 : ¬ s.socket_fd < 0 := by omega
    have h6 : ¬ MAX_SCHEDULED_TRANSACTION_COUNT ≤ s.scheduled_transactions.length := by omega
    simp [read, h4, h5, h6]

/-- Witness for `read_submit_spec`: a negative timeout at the fresh state is
rejected synchronously with InvalidArgument and no queue entry. -/
theorem read_submit_spec_witness :
    (-1 : Int) < 0 ∧
    read initState 5 (-1) true
      = ({ initState with next_token := 1 },
         [⟨0, TransactionResult.InvalidArgument, none⟩]) :=
  ⟨by decide, (read_submit_spec initState 5 (-1)).2.1 (by decide)⟩

/-- C5: on every `tick_hook` invocation, an elapsed pending transaction is
failed with Timeout first; then, if (afterwards) no transaction is pending
and the wait queue is non-empty, the queue head becomes the single pending
transaction, its absolute deadline is `calculate_deadline now timeout`
computed at this promotion, its escaped encoded request is transmitted,
and a transmit failure fails it with SendFailed and escalates a
SocketSendFailed disconnect — also on the invocation where the failing
promotion follows a timeout; in all other situations nothing changes. -/
theorem tick_spec (s : ClientState) (now : Int) (send_ok : Bool) :
    (s.pending_transaction = none → s.scheduled_transactions = [] →
      tick_hook s now send_ok = ⟨s, [], none, none⟩) ∧
    (∀ t rest, s.pending_transaction = none →
      s.scheduled_transactions = t :: rest → send_ok = true →
      tick_hook s now send_ok
        = ⟨{ s with
              pending_transaction := some t,
              scheduled_transactions := rest,
              pending_transaction_deadline := calculate_deadline now t.timeout },
           [], some (escape_loop (encode_request t.id)), none⟩) ∧
    (∀ t rest, s.pending_transaction = none →
      s.scheduled_transactions = t :: rest → send_ok = false →
      tick_hook s now send_ok
        = ⟨{ s with
              pending_transaction := none,
              scheduled_transactions := rest,
              pending_transaction_deadline := 0 },
           [⟨t.token, TransactionResult.SendFailed, none⟩],
           some (escape_loop (encode_request t.id)),
           some DisconnectReason.SocketSendFailed⟩) ∧
    (∀ t, s.pending_transaction = some t →
      deadline_elapsed now s.pending_transaction_deadline = false →
      tick_hook s now send_ok = ⟨s, [], none, none⟩) ∧
    (∀ t, s.pending_transaction = some t →
      deadline_elapsed now s.pending_transaction_deadline = true →
      s.scheduled_transactions = [] →
      tick_hook s now send_ok
        = ⟨{ s with pending_transaction := none, pending_transaction_deadline := 0 },
           [⟨t.token, TransactionResult.Timeout, none⟩], none, none⟩) ∧
    (∀ t u rest, s.pending_transaction = some t →
      deadline_elapsed now s.pending_transaction_deadline = true →
      s.scheduled_transactions = u :: rest → send_ok = true →
      tick_hook s now send_ok
        = ⟨{ s with
              pending_transaction := some u,
              scheduled_transactions := rest,
              pending_transaction_deadline := calculate_deadline now u.timeout },
           [⟨t.token, TransactionResult.Timeout, none⟩],
           some (escape_loop (encode_request u.id)), none⟩) ∧
    (∀ t u rest, s.pending_transaction = some t →
      deadline_elapsed now s.pending_transaction_deadline = true →
      s.scheduled_transactions = u :: rest → send_ok = false →
      tick_hook s now send_ok
        = ⟨{ s with
              pending_transaction := none,
              scheduled_transactions := rest,
              pending_transaction_deadline := 0 },
           [⟨t.token, TransactionResult.Timeout, none⟩,
            ⟨u.token, TransactionResult.SendFailed, none⟩],
           some (escape_loop (encode_request u.id)),
           some DisconnectReason.SocketSendFailed⟩) := by
  refine ⟨?_, ?_, ?_, ?_, ?_, ?_, ?_⟩
  · intro hp hq
    simp [tick_hook, check_pending_transaction_timeout, hp, hq]
  · intro t rest hp hq hs
    subst hs
    simp [tick_hook, check_pending_transaction_timeout, hp, hq]
  · intro t rest hp hq hs
    subst hs
    simp [tick_hook, check_pending_transaction_timeout, hp, hq,
      finish_pending_transaction]
  · intro t hp he
    simp [tick_hook, check_pending_transaction_timeout, hp, he]
  · intro t hp he hq
    simp [tick_hook, check_pending_transaction_timeout, hp, he, hq,
      finish_pending_transaction]
  · intro t u rest hp he hq hs
    subst hs
    simp [tick_hook, check_pending_transaction_timeout, hp, he, hq,
      finish_pending_transaction]
  · intro t u rest hp he hq hs
    subst hs
    simp [tick_hook, check_pending_transaction_timeout, hp, he, hq,
      finish_pending_transaction]

/-- Witness for `tick_spec`: promoting the single queued transaction at a
connected state computes the deadline 50 + 100 and transmits its request. -/
theorem tick_spec_witness :
    tick_hook ⟨1, [⟨7, 100, 3⟩], none, 0, ⟨true, 0, []⟩, 0, 0, 4⟩ 50 true
      = ⟨⟨1, [], some ⟨7, 100, 3⟩, 150, ⟨true, 0, []⟩, 0, 0, 4⟩, [],
         some (escape_loop (encode_request 7)), none⟩ :=
  (tick_spec ⟨1, [⟨7, 100, 3⟩], none, 0, ⟨true, 0, []⟩, 0, 0, 4⟩ 50 true).2.1
    ⟨7, 100, 3⟩ [] rfl rfl rfl

/-- C6: a complete candidate frame with no pending transaction, or whose
big-endian id in bytes 2–5 differs from the pending transaction's id, is
discarded without completing or failing anything: no callback fires, the
pending transaction, its deadline and the wait queue are unchanged, and
only the decoder is reset to searching with an empty buffer. -/
theorem stale_frame_discarded (s : ClientState)
    (h12 : s.decode.pending_response.length = RESPONSE_LENGTH)
    (h : s.pending_transaction = none ∨
      ∀ t, s.pending_transaction = some t → t.id ≠ decodeId s.decode.pending_response) :
    handle_complete_frame s = (reset_pending_response s, []) ∧
    (handle_complete_frame s).1.pending_transaction = s.pending_transaction ∧
    (handle_complete_frame s).1.pending_transaction_deadline
      = s.pending_transaction_deadline ∧
    (handle_complete_frame s).1.scheduled_transactions = s.scheduled_transactions ∧
    (handle_complete_frame s).1.decode.wait_for_start = true ∧
    (handle_complete_frame s).1.decode.pending_response = [] := by
  have hmain : handle_complete_frame s = (reset_pending_response s, []) := by
    rcases h with h | h
    · simp [handle_complete_frame, h]
    · cases hp : s.pending_transaction with
      | none => simp [handle_complete_frame, hp]
      | some t =>
        have hne : t.id ≠ decodeId s.decode.pending_response := h t hp
        simp [handle_complete_frame, hp, hne]
  refine ⟨hmain, ?_, ?_, ?_, ?_, ?_⟩ <;> rw [hmain] <;> rfl

/-- Witness for `stale_frame_discarded`: a full 12-byte frame arriving with
no pending transaction is dropped and only the decoder is reset. -/
theorem stale_frame_discarded_witness :
    ((⟨1, [], none, 0, ⟨false, 0, [5, 8, 0, 0, 0, 1, 0, 0, 0, 0, 0, 0]⟩, 0, 0,
        0⟩ : ClientState).decode.pending_response.length = RESPONSE_LENGTH ∧
      (⟨1, [], none, 0, ⟨false, 0, [5, 8, 0, 0, 0, 1, 0, 0, 0, 0, 0, 0]⟩, 0, 0,
        0⟩ : ClientState).pending_transaction = none) ∧
    handle_complete_frame
        ⟨1, [], none, 0, ⟨false, 0, [5, 8, 0, 0, 0, 1, 0, 0, 0, 0, 0, 0]⟩, 0, 0, 0⟩
      = (⟨1, [], none, 0, ⟨true, 0, []⟩, 0, 0, 0⟩, []) :=
  ⟨⟨by decide, rfl⟩,
    (stale_frame_discarded
      ⟨1, [], none, 0, ⟨false, 0, [5, 8, 0, 0, 0, 1, 0, 0, 0, 0, 0, 0]⟩, 0, 0, 0⟩
      (by decide) (Or.inl rfl)).1⟩

/-- C7: a complete candidate frame whose id matches the pending transaction
but whose checksum over bytes 0–9 differs from the big-endian value in
bytes 10–11 fails the pending transaction with ChecksumMismatch (the
pending slot becomes empty, no retry), and the decoder is reset to the
searching state with an empty buffer so a later well-formed frame can be
parsed. -/
theorem checksum_mismatch_spec (s : ClientState) (t : Transaction)
    (h12 : s.decode.pending_response.length = RESPONSE_LENGTH)
    (hp : s.pending_transaction = some t)
    (hid : t.id = decodeId s.decode.pending_response)
    (hcrc : crc16ccitt (s.decode.pending_response.take
        (s.decode.pending_response.length - 2))
      ≠ expectedChecksum s.decode.pending_response) :
    handle_complete_frame s
      = ({ reset_pending_response s with
            pending_transaction := none,
            pending_transaction_deadline := 0 },
         [⟨t.token, TransactionResult.ChecksumMismatch, none⟩]) ∧
    (handle_complete_frame s).1.pending_transaction = none ∧
    (handle_complete_frame s).1.scheduled_transactions = s.scheduled_transactions ∧
    (handle_complete_frame s).1.decode.wait_for_start = true ∧
    (handle_complete_frame s).1.decode.pending_response = [] := by
  have hmain : handle_complete_frame s
      = ({ reset_pending_response s with
            pending_transaction := none,
            pending_transaction_deadline := 0 },
         [⟨t.token, TransactionResult.ChecksumMismatch, none⟩]) := by
    simp [handle_complete_frame, hp, hid, hcrc, finish_pending_transaction,
      reset_pending_response]
  refine ⟨hmain, ?_, ?_, ?_, ?_⟩ <;> rw [hmain] <;> rfl

set_option maxRecDepth 40000 in
/-- Witness for `checksum_mismatch_spec`: a frame for the pending id 1
whose trailing checksum bytes are zero (the true checksum is not zero)
fails the pending transaction with ChecksumMismatch. -/
theorem checksum_mismatch_spec_witness :
    handle_complete_frame
        ⟨1, [], some ⟨1, 100, 0⟩, 77, ⟨false, 0,
          [5, 8, 0, 0, 0, 1, 0x3F, 0x80, 0, 0, 0, 0]⟩, 0, 0, 1⟩
      = (⟨1, [], none, 0, ⟨true, 0, []⟩, 0, 0, 1⟩,
         [⟨0, TransactionResult.ChecksumMismatch, none⟩]) :=
  (checksum_mismatch_spec
    ⟨1, [], some ⟨1, 100, 0⟩, 77, ⟨false, 0,
      [5, 8, 0, 0, 0, 1, 0x3F, 0x80, 0, 0, 0, 0]⟩, 0, 0, 1⟩
    ⟨1, 100, 0⟩ (by decide) rfl (by decide) (by decide)).1

/-- C8: a complete candidate frame whose id matches the pending transaction
and whose checksum verifies completes the pending transaction with Success
carrying the value whose IEEE-754 single-precision bit pattern is bytes
6–9 of the frame assembled big-endian (byte 6 most significant), and the
pending slot becomes empty. -/
theorem success_frame_spec (s : ClientState) (t : Transaction)
    (h12 : s.decode.pending_response.length = RESPONSE_LENGTH)
    (hp : s.pending_transaction = some t)
    (hid : t.id = decodeId s.decode.pending_response)
    (hcrc : crc16ccitt (s.decode.pending_response.take
        (s.decode.pending_response.length - 2))
      = expectedChecksum s.decode.pending_response) :
    handle_complete_frame s
      = ({ reset_pending_response s with
            pending_transaction := none,
            pending_transaction_deadline := 0 },
         [⟨t.token, TransactionResult.Success,
           some (decodeValue s.decode.pending_response)⟩]) ∧
    decodeValue s.decode.pending_response
      = ((s.decode.pending_response.getD 6 0) <<< 24) |||
        ((s.decode.pending_response.getD 7 0) <<< 16) |||
        ((s.decode.pending_response.getD 8 0) <<< 8) |||
        (s.decode.pending_response.getD 9 0) ∧
    (handle_complete_frame s).1.pending_transaction = none := by
  have hmain : handle_complete_frame s
      = ({ reset_pending_response s with
            pending_transaction := none,
            pending_transaction_deadline := 0 },
         [⟨t.token, TransactionResult.Success,
           some (decodeValue s.decode.pending_response)⟩]) := by
    simp [handle_complete_frame, hp, hid, hcrc, finish_pending_transaction,
      reset_pending_response]
  refine ⟨hmain, rfl, ?_⟩
  rw [hmain]

set_option maxRecDepth 40000 in
/-- Witness for `success_frame_spec`: a valid frame for the pending id 1
carrying the float bit pattern 0x3F800000 (1.0f) completes the pending
transaction with Success and that value. -/
theorem success_frame_spec_witness :
    handle_complete_frame
        ⟨1, [], some ⟨1, 100, 0⟩, 77, ⟨false, 0,
          [5, 8, 0, 0, 0, 1, 0x3F, 0x80, 0, 0, 0x63, 0xBA]⟩, 0, 0, 1⟩
      = (⟨1, [], none, 0, ⟨true, 0, []⟩, 0, 0, 1⟩,
         [⟨0, TransactionResult.Success, some 0x3F800000⟩]) :=
  (success_frame_spec
    ⟨1, [], some ⟨1, 100, 0⟩, 77, ⟨false, 0,
      [5, 8, 0, 0, 0, 1, 0x3F, 0x80, 0, 0, 0x63, 0xBA]⟩, 0, 0, 1⟩
    ⟨1, 100, 0⟩ (by decide) rfl (by decide) (by decide)).1

/-- Tokens of all transactions currently owned by the engine: the wait
queue followed by the pending slot. -/
def outstanding (s : ClientState) : List Nat :=
  s.scheduled_transactions.map Transaction.token ++
    (match s.pending_transaction with
     | some t => [t.token]
     | none => [])

/-- Number of callback invocations carrying token `k` in an event list. -/
def tokenCount (evs : List Event) (k : Nat) : Nat :=
  (evs.map Event.token).count k

lemma tokenCount_append (a b : List Event) (k : Nat) :
    tokenCount (a ++ b) k = tokenCount a k + tokenCount b k := by
  simp [tokenCount, List.count_append]

lemma finish_pending_balance (s : ClientState) (r : TransactionResult)
    (v : Option Nat) (k : Nat) :
    (finish_pending_transaction s r v).1.next_token = s.next_token ∧
    (finish_pending_transaction s r v).1.scheduled_transactions
      = s.scheduled_transactions ∧
    (finish_pending_transaction s r v).1.socket_fd = s.socket_fd ∧
    tokenCount (finish_pending_transaction s r v).2 k
      + (outstanding (finish_pending_transaction s r v).1).count k
      = (outstanding s).count k := by
  cases hp : s.pending_transaction with
  | none => simp [finish_pending_transaction, hp, tokenCount]
  | some t =>
    refine ⟨?_, ?_, ?_, ?_⟩
    · simp [finish_pending_transaction, hp]
    · simp [finish_pending_transaction, hp]
    · simp [finish_pending_transaction, hp]
    · by_cases hk : t.token = k <;>
        simp [finish_pending_transaction, hp, outstanding, tokenCount,
          List.count_append, hk] <;>
        omega

lemma check_timeout_balance (s : ClientState) (now : Int) (k : Nat) :
    (check_pending_transaction_timeout s now).1.next_token = s.next_token ∧
    (check_pending_transaction_timeout s now).1.scheduled_transactions
      = s.scheduled_transactions ∧
    (check_pending_transaction_timeout s now).1.socket_fd = s.socket_fd ∧
    tokenCount (check_pending_transaction_timeout s now).2 k
      + (outstanding (check_pending_transaction_timeout s now).1).count k
      = (outstanding s).count k := by
  unfold check_pending_transaction_timeout
  cases hp : s.pending_transaction with
  | none => simp [tokenCount]
  | some t =>
    split_ifs with h
    · exact finish_pending_balance s _ _ k
    · simp [tokenCount]

lemma handle_frame_balance (s : ClientState) (k : Nat) :
    (handle_complete_frame s).1.next_token = s.next_token ∧
    (handle_complete_frame s).1.scheduled_transactions = s.scheduled_transactions ∧
    (handle_complete_frame s).1.socket_fd = s.socket_fd ∧
    tokenCount (handle_complete_frame s).2 k
      + (outstanding (handle_complete_frame s).1).count k
      = (outstanding s).count k := by
  have hro : outstanding (reset_pending_response s) = outstanding s := rfl
  have hcm := finish_pending_balance (reset_pending_response s)
    TransactionResult.ChecksumMismatch none k
  have hsu := finish_pending_balance (reset_pending_response s)
    TransactionResult.Success (some (decodeValue s.decode.pending_response)) k
  rw [hro] at hcm hsu
  unfold handle_complete_frame
  cases hp : s.pending_transaction with
  | none => simp [tokenCount, reset_pending_response, outstanding]
  | some t =>
    simp only []
    split_ifs with h1 h2
    · simp [tokenCount, reset_pending_response, outstanding]
    · exact hcm
    · exact hsu

lemma post_validate_fields (s : ClientState) :
    (post_validate s).scheduled_transactions = s.scheduled_transactions ∧
    (post_validate s).pending_transaction = s.pending_transaction ∧
    (post_validate s).next_token = s.next_token ∧
    (post_validate s).socket_fd = s.socket_fd := by
  unfold post_validate reset_pending_response
  split_ifs <;> exact ⟨rfl, rfl, rfl, rfl⟩

lemma process_byte_fields (s : ClientState) (now : Int) (b : Nat) :
    (process_byte s now b).scheduled_transactions = s.scheduled_transactions ∧
    (process_byte s now b).pending_transaction = s.pending_transaction ∧
    (process_byte s now b).next_token = s.next_token ∧
    (process_byte s now b).socket_fd = s.socket_fd := by
  unfold process_byte
  exact post_validate_fields _

lemma receive_run_balance (bytes : List Nat) : ∀ (s : ClientState) (now : Int) (k : Nat),
    (receive_run s now bytes).1.next_token = s.next_token ∧
    (receive_run s now bytes).1.socket_fd = s.socket_fd ∧
    tokenCount (receive_run s now bytes).2 k
      + (outstanding (receive_run s now bytes).1).count k
      = (outstanding s).count k := by
  induction bytes with
  | nil => intro s now k; simp [receive_run, tokenCount]
  | cons b rest ih =>
    intro s now k
    obtain ⟨hpf1, hpf2, hpf3, hpf4⟩ := process_byte_fields s now b
    have hout : outstanding (process_byte s now b) = outstanding s := by
      unfold outstanding
      rw [hpf1, hpf2]
    simp only [receive_run]
    by_cases hfull :
        (process_byte s now b).decode.pending_response.length = RESPONSE_LENGTH
    · rw [if_pos hfull]
      dsimp only
      obtain ⟨hh1, hh2, hh3, hh4⟩ :=
        handle_frame_balance (process_byte s now b) k
      rw [hout] at hh4
      obtain ⟨hr1, hr2, hr3⟩ :=
        ih (handle_complete_frame (process_byte s now b)).1 now k
      refine ⟨?_, ?_, ?_⟩
      · rw [hr1, hh1, hpf3]
      · rw [hr2, hh3, hpf4]
      · rw [tokenCount_append]
        omega
    · rw [if_neg hfull]
      obtain ⟨hr1, hr2, hr3⟩ := ih (process_byte s now b) now k
      rw [hout] at hr3
      exact ⟨by rw [hr1, hpf3], by rw [hr2, hpf4], hr3⟩

lemma reject_balance (s : ClientState) (res : TransactionResult) (k : Nat) :
    tokenCount [⟨s.next_token, res, none⟩] k
      + (outstanding { s with next_token := s.next_token + 1 }).count k
      = (outstanding s).count k
        + (if s.next_token ≤ k ∧ k < s.next_token + 1 then 1 else 0) := by
  have hout : outstanding { s with next_token := s.next_token + 1 } = outstanding s := rfl
  rw [hout]
  by_cases hk : k = s.next_token
  · rw [if_pos (by omega)]
    simp [tokenCount, hk]
    omega
  · rw [if_neg (by omega)]
    simp [tokenCount, hk, Ne.symm hk]

lemma read_balance (s : ClientState) (id : Nat) (timeout : Int) (hcb : Bool) (k : Nat) :
    s.next_token ≤ (read s id timeout hcb).1.next_token ∧
    (read s id timeout hcb).1.socket_fd = s.socket_fd ∧
    tokenCount (read s id timeout hcb).2 k
      + (outstanding (read s id timeout hcb).1).count k
      = (outstanding s).count k
        + (if s.next_token ≤ k ∧ k < (read s id timeout hcb).1.next_token
           then 1 else 0) := by
  cases hcb with
  | false =>
    refine ⟨le_refl _, rfl, ?_⟩
    show tokenCount [] k + (outstanding s).count k
      = (outstanding s).count k
        + (if s.next_token ≤ k ∧ k < s.next_token then 1 else 0)
    rw [if_neg (by omega)]
    simp [tokenCount]
  | true =>
    have hread : read s id timeout true
        = (if timeout < 0 then
            ({ s with next_token := s.next_token + 1 },
             [⟨s.next_token, TransactionResult.InvalidArgument, none⟩])
          else if s.socket_fd < 0 then
            ({ s with next_token := s.next_token + 1 },
             [⟨s.next_token, TransactionResult.NotConnected, none⟩])
          else if MAX_SCHEDULED_TRANSACTION_COUNT ≤ s.scheduled_transactions.length then
            ({ s with next_token := s.next_token + 1 },
             [⟨s.next_token, TransactionResult.NoTransactionAvailable, none⟩])
          else
            ({ s with
                scheduled_transactions :=
                  s.scheduled_transactions ++ [⟨id, timeout, s.next_token⟩],
                next_token := s.next_token + 1 },
             [])) := rfl
    by_cases h1 : timeout < 0
    · have e : read s id timeout true
          = ({ s with next_token := s.next_token + 1 },
             [⟨s.next_token, TransactionResult.InvalidArgument, none⟩]) := by
        rw [hread, if_pos h1]
      rw [e]
      exact ⟨by dsimp only; omega, rfl, reject_balance s _ k⟩
    · by_cases h2 : s.socket_fd < 0
      · have e : read s id timeout true
            = ({ s with next_token := s.next_token + 1 },
               [⟨s.next_token, TransactionResult.NotConnected, none⟩]) := by
          rw [hread, if_neg h1, if_pos h2]
        rw [e]
        exact ⟨by dsimp only; omega, rfl, reject_balance s _ k⟩
      · by_cases h3 : MAX_SCHEDULED_TRANSACTION_COUNT ≤ s.scheduled_transactions.length
        · have e : read s id timeout true
              = ({ s with next_token := s.next_token + 1 },
                 [⟨s.next_token, TransactionResult.NoTransactionAvailable, none⟩]) := by
            rw [hread, if_neg h1, if_neg h2, if_pos h3]
          rw [e]
          exact ⟨by dsimp only; omega, rfl, reject_balance s _ k⟩
        · have e : read s id timeout true
              = ({ s with
                    scheduled_transactions :=
                      s.scheduled_transactions ++ [⟨id, timeout, s.next_token⟩],
                    next_token := s.next_token + 1 },
                 ([] : List Event)) := by
            rw [hread, if_neg h1, if_neg h2, if_neg h3]
          rw [e]
          refine ⟨by dsimp only; omega, rfl, ?_⟩
          show tokenCount [] k
            + (outstanding { s with
                scheduled_transactions :=
                  s.scheduled_transactions ++ [⟨id, timeout, s.next_token⟩],
                next_token := s.next_token + 1 }).count k
            = (outstanding s).count k
              + (if s.next_token ≤ k ∧ k < s.next_token + 1 then 1 else 0)
          by_cases hk : k = s.next_token
          · rw [if_pos (by omega)]
            simp [tokenCount, outstanding, List.count_append, hk]
            omega
          · rw [if_neg (by omega)]
            simp [tokenCount, outstanding, List.count_append, hk, Ne.symm hk]

lemma tick_balance (s : ClientState) (now : Int) (send_ok : Bool) (k : Nat) :
    (tick_hook s now send_ok).state.next_token = s.next_token ∧
    (tick_hook s now send_ok).state.socket_fd = s.socket_fd ∧
    tokenCount (tick_hook s now send_ok).events k
      + (outstanding (tick_hook s now send_ok).state).count k
      = (outstanding s).count k := by
  obtain ⟨hc1, hc2, hc3, hc4⟩ := check_timeout_balance s now k
  unfold tick_hook
  dsimp only
  cases hp : (check_pending_transaction_timeout s now).1.pending_transaction with
  | some t =>
    cases hq : (check_pending_transaction_timeout s now).1.scheduled_transactions with
    | nil => exact ⟨hc1, hc3, hc4⟩
    | cons u rest => exact ⟨hc1, hc3, hc4⟩
  | none =>
    cases hq : (check_pending_transaction_timeout s now).1.scheduled_transactions with
    | nil => exact ⟨hc1, hc3, hc4⟩
    | cons t rest =>
      dsimp only
      have hout2 : (outstanding { (check_pending_transaction_timeout s now).1 with
          pending_transaction := some t,
          scheduled_transactions := rest,
          pending_transaction_deadline := calculate_deadline now t.timeout }).count k
          = (outstanding (check_pending_transaction_timeout s now).1).count k := by
        unfold outstanding
        rw [hq, hp]
        dsimp only
        by_cases hk : t.token = k <;>
          simp [List.count_append, List.count_cons, List.count_nil, hk] <;> omega
      dsimp only at hout2
      cases send_ok with
      | true =>
        rw [if_pos (rfl : true = true)]
        refine ⟨hc1, hc3, ?_⟩
        dsimp only
        rw [hout2]
        exact hc4
      | false =>
        rw [if_neg (by decide : ¬ false = true)]
        dsimp only
        obtain ⟨hf1, hf2, hf3, hf4⟩ := finish_pending_balance
          { (check_pending_transaction_timeout s now).1 with
            pending_transaction := some t,
            scheduled_transactions := rest,
            pending_transaction_deadline := calculate_deadline now t.timeout }
          TransactionResult.SendFailed none k
        dsimp only at hf1 hf3 hf4
        rw [hout2] at hf4
        refine ⟨by rw [hf1]; exact hc1, by rw [hf3]; exact hc3, ?_⟩
        rw [tokenCount_append]
        omega

lemma finish_pending_none (s : ClientState) (r : TransactionResult)
    (v : Option Nat) (h : s.pending_transaction = none) :
    finish_pending_transaction s r v = (s, []) := by
  unfold finish_pending_transaction
  rw [h]

lemma event_token_comp (r : TransactionResult) :
    (Event.token ∘ fun t : Transaction => (⟨t.token, r, none⟩ : Event))
      = Transaction.token := by
  funext t
  rfl

lemma close_balance (s : ClientState) (k : Nat) :
    (close_hook s).1.next_token = s.next_token ∧
    (close_hook s).1.socket_fd = s.socket_fd ∧
    (close_hook s).1.scheduled_transactions = [] ∧
    (close_hook s).1.pending_transaction = none ∧
    tokenCount (close_hook s).2 k + (outstanding (close_hook s).1).count k
      = (outstanding s).count k := by
  unfold close_hook finish_all_transactions
  cases hp : s.pending_transaction with
  | none =>
    refine ⟨rfl, rfl, rfl, ?_, ?_⟩
    · simp [finish_pending_transaction, reset_pending_response, hp]
    · simp [finish_pending_transaction, reset_pending_response, hp,
        outstanding, tokenCount, List.map_map, event_token_comp]
  | some t =>
    refine ⟨?_, ?_, ?_, ?_, ?_⟩
    · simp [finish_pending_transaction, reset_pending_response, hp]
    · simp [finish_pending_transaction, reset_pending_response, hp]
    · simp [finish_pending_transaction, reset_pending_response, hp]
    · simp [finish_pending_transaction, reset_pending_response, hp]
    · by_cases hk : t.token = k <;>
        simp [finish_pending_transaction, reset_pending_response, hp,
          outstanding, tokenCount, List.map_map, event_token_comp,
          List.count_append, List.count_cons, List.count_nil, hk] <;>
        omega

lemma step_balance (s : ClientState) (op : Op) (k : Nat) :
    s.next_token ≤ (step s op).1.next_token ∧
    tokenCount (step s op).2 k + (outstanding (step s op).1).count k
      = (outstanding s).count k
        + (if s.next_token ≤ k ∧ k < (step s op).1.next_token then 1 else 0) := by
  cases op with
  | opRead id timeout hcb =>
    obtain ⟨h1, _, h3⟩ := read_balance s id timeout hcb k
    exact ⟨h1, h3⟩
  | opTick now send_ok =>
    obtain ⟨h1, _, h3⟩ := tick_balance s now send_ok k
    have he : (step s (Op.opTick now send_ok)).1.next_token = s.next_token := h1
    refine ⟨by omega, ?_⟩
    have hw : ¬ (s.next_token ≤ k ∧ k < (step s (Op.opTick now send_ok)).1.next_token) := by
      omega
    rw [if_neg hw]
    exact h3
  | opReceive now bytes =>
    obtain ⟨h1, _, h3⟩ := receive_run_balance bytes s now k
    have he : (step s (Op.opReceive now bytes)).1.next_token = s.next_token := h1
    refine ⟨by omega, ?_⟩
    have hw : ¬ (s.next_token ≤ k ∧ k < (step s (Op.opReceive now bytes)).1.next_token) := by
      omega
    rw [if_neg hw]
    exact h3
  | opClose =>
    obtain ⟨h1, _, _, _, h5⟩ := close_balance s k
    have he : (step s Op.opClose).1.next_token = s.next_token := h1
    refine ⟨by omega, ?_⟩
    have hw : ¬ (s.next_token ≤ k ∧ k < (step s Op.opClose).1.next_token) := by
      omega
    rw [if_neg hw]
    exact h5
  | opSetSocket fd =>
    refine ⟨le_refl _, ?_⟩
    have hout : outstanding { s with socket_fd := fd } = outstanding s := rfl
    have hw : ¬ (s.next_token ≤ k ∧ k < (step s (Op.opSetSocket fd)).1.next_token) := by
      simp only [step]
      omega
    rw [if_neg hw]
    simp [step, tokenCount, hout]

lemma run_balance (ops : List Op) : ∀ (s : ClientState) (k : Nat),
    s.next_token ≤ (run s ops).1.next_token ∧
    tokenCount (run s ops).2 k + (outstanding (run s ops).1).count k
      = (outstanding s).count k
        + (if s.next_token ≤ k ∧ k < (run s ops).1.next_token then 1 else 0) := by
  induction ops with
  | nil =>
    intro s k
    refine ⟨le_refl _, ?_⟩
    have hw : ¬ (s.next_token ≤ k ∧ k < (run s []).1.next_token) := by
      simp only [run]
      omega
    rw [if_neg hw]
    simp [run, tokenCount]
  | cons op ops ih =>
    intro s k
    obtain ⟨hs1, hb1⟩ := step_balance s op k
    obtain ⟨hs2, hb2⟩ := ih (step s op).1 k
    simp only [run]
    refine ⟨le_trans hs1 hs2, ?_⟩
    rw [tokenCount_append]
    split_ifs at hb1 hb2 ⊢ <;> omega

lemma run_append (l1 l2 : List Op) : ∀ s : ClientState,
    run s (l1 ++ l2)
      = ((run (run s l1).1 l2).1, (run s l1).2 ++ (run (run s l1).1 l2).2) := by
  induction l1 with
  | nil => intro s; simp [run]
  | cons op ops ih =>
    intro s
    simp only [List.cons_append, run, List.append_eq]
    rw [ih]
    simp [List.append_assoc]

lemma abort_event_comp :
    ((fun tok => (⟨tok, TransactionResult.Aborted, none⟩ : Event)) ∘ Transaction.token)
      = fun t : Transaction => (⟨t.token, TransactionResult.Aborted, none⟩ : Event) := by
  funext t
  rfl

lemma close_hook_aborts (s : ClientState) :
    (close_hook s).2
      = ((match s.pending_transaction with
          | some t => [t.token]
          | none => [])
         ++ s.scheduled_transactions.map Transaction.token).map
          (fun tok => (⟨tok, TransactionResult.Aborted, none⟩ : Event)) := by
  cases hp : s.pending_transaction with
  | none =>
    simp [close_hook, finish_all_transactions, finish_pending_transaction,
      reset_pending_response, hp, List.map_map, abort_event_comp]
  | some t =>
    simp [close_hook, finish_all_transactions, finish_pending_transaction,
      reset_pending_response, hp, List.map_map, abort_event_comp]

/-- C3: over any sequence of entry-point invocations from the fresh state,
no callback token ever receives more than one terminal result; when the
sequence ends with teardown (`close_hook`), the wait queue and pending slot
are empty, every allocated callback token has received exactly one terminal
result, and the teardown itself completes exactly the still-outstanding
transactions — the pending one and then every queued one — each with one
Aborted event; so no accepted transaction is dropped, each being finished
(and its transaction destroyed) exactly once. -/
theorem transactions_finish_exactly_once (ops : List Op) (k : Nat) :
    tokenCount (run initState ops).2 k ≤ 1 ∧
    (run initState (ops ++ [Op.opClose])).1.scheduled_transactions = [] ∧
    (run initState (ops ++ [Op.opClose])).1.pending_transaction = none ∧
    (k < (run initState (ops ++ [Op.opClose])).1.next_token →
      tokenCount (run initState (ops ++ [Op.opClose])).2 k = 1) ∧
    (run initState (ops ++ [Op.opClose])).2
      = (run initState ops).2
        ++ ((match (run initState ops).1.pending_transaction with
             | some t => [t.token]
             | none => [])
            ++ (run initState ops).1.scheduled_transactions.map Transaction.token).map
            (fun tok => (⟨tok, TransactionResult.Aborted, none⟩ : Event)) := by
  have h0 : (outstanding initState).count k = 0 := rfl
  obtain ⟨hm1, hb1⟩ := run_balance ops initState k
  obtain ⟨hm2, hb2⟩ := run_balance (ops ++ [Op.opClose]) initState k
  obtain ⟨hcl1, hcl2, hcl3, hcl4, hcl5⟩ := close_balance (run initState ops).1 k
  have hfin : (run initState (ops ++ [Op.opClose])).1
      = (close_hook (run initState ops).1).1 := by
    rw [run_append ops [Op.opClose] initState]
    simp [run, step]
  have hsched : (run initState (ops ++ [Op.opClose])).1.scheduled_transactions = [] := by
    rw [hfin]; exact hcl3
  have hpend : (run initState (ops ++ [Op.opClose])).1.pending_transaction = none := by
    rw [hfin]; exact hcl4
  have hempty : outstanding (run initState (ops ++ [Op.opClose])).1 = [] := by
    unfold outstanding
    rw [hsched, hpend]
    rfl
  refine ⟨?_, hsched, hpend, ?_, ?_⟩
  · rw [h0] at hb1
    split_ifs at hb1 <;> omega
  · intro hk
    rw [h0, hempty] at hb2
    simp only [List.count_nil] at hb2
    have hinit : initState.next_token = 0 := rfl
    rw [hinit] at hb2
    split_ifs at hb2 with h <;> omega
  · have hev : (run initState (ops ++ [Op.opClose])).2
        = (run initState ops).2 ++ (close_hook (run initState ops).1).2 := by
      rw [run_append ops [Op.opClose] initState]
      simp [run, step]
    rw [hev, close_hook_aborts]

/-- Witness for `transactions_finish_exactly_once`: connecting, submitting
one request and tearing down invokes the single allocated callback exactly
once. -/
theorem transactions_finish_exactly_once_witness :
    0 < (run initState ([Op.opSetSocket 1, Op.opRead 5 100 true]
        ++ [Op.opClose])).1.next_token ∧
    tokenCount (run initState ([Op.opSetSocket 1, Op.opRead 5 100 true]
        ++ [Op.opClose])).2 0 = 1 :=
  ⟨by decide,
    (transactions_finish_exactly_once [Op.opSetSocket 1, Op.opRead 5 100 true] 0).2.2.2.1
      (by decide)⟩

/-- C10: when `finish_pending_transaction` completes the pending
transaction, the state handed to the callback is already cleaned up — the
pending slot is empty, the deadline cleared and the transaction destroyed
(its callback moved out), the callback being invoked exactly once with the
given result and value; a reentrant completion attempt from the callback
finishes nothing, and no continuation of the run can ever invoke the same
callback token again. -/
theorem callback_runs_after_cleanup (s : ClientState) (t : Transaction)
    (r : TransactionResult) (v : Option Nat)
    (hp : s.pending_transaction = some t)
    (htok : t.token < s.next_token)
    (hq : (s.scheduled_transactions.map Transaction.token).count t.token = 0) :
    (finish_pending_transaction s r v).1.pending_transaction = none ∧
    (finish_pending_transaction s r v).1.pending_transaction_deadline = 0 ∧
    (finish_pending_transaction s r v).2 = [⟨t.token, r, v⟩] ∧
    (∀ r2 v2, finish_pending_transaction (finish_pending_transaction s r v).1 r2 v2
        = ((finish_pending_transaction s r v).1, [])) ∧
    (∀ ops, tokenCount (run (finish_pending_transaction s r v).1 ops).2 t.token = 0) := by
  have h1 : (finish_pending_transaction s r v).1.pending_transaction = none := by
    simp [finish_pending_transaction, hp]
  have h2 : (finish_pending_transaction s r v).1.pending_transaction_deadline = 0 := by
    simp [finish_pending_transaction, hp]
  have h3 : (finish_pending_transaction s r v).2 = [⟨t.token, r, v⟩] := by
    simp [finish_pending_transaction, hp]
  refine ⟨h1, h2, h3, ?_, ?_⟩
  · intro r2 v2
    exact finish_pending_none _ r2 v2 h1
  · intro ops
    obtain ⟨hf1, hf2, _, _⟩ := finish_pending_balance s r v t.token
    have hout : (outstanding (finish_pending_transaction s r v).1).count t.token = 0 := by
      unfold outstanding
      rw [h1, hf2]
      simp [hq]
    obtain ⟨hm, hb⟩ := run_balance ops (finish_pending_transaction s r v).1 t.token
    rw [hout, hf1] at hb
    split_ifs at hb with h <;> omega

/-- Witness for `callback_runs_after_cleanup`: finishing a concrete
pending transaction reports the event once and a subsequent tick cannot
fire its callback again. -/
theorem callback_runs_after_cleanup_witness :
    (finish_pending_transaction
        ⟨1, [], some ⟨2, 50, 0⟩, 99, ⟨true, 0, []⟩, 0, 0, 1⟩
        TransactionResult.Timeout none).2
      = [⟨0, TransactionResult.Timeout, none⟩] ∧
    tokenCount (run (finish_pending_transaction
        ⟨1, [], some ⟨2, 50, 0⟩, 99, ⟨true, 0, []⟩, 0, 0, 1⟩
        TransactionResult.Timeout none).1 [Op.opTick 0 true]).2 0 = 0 :=
  ⟨(callback_runs_after_cleanup
      ⟨1, [], some ⟨2, 50, 0⟩, 99, ⟨true, 0, []⟩, 0, 0, 1⟩
      ⟨2, 50, 0⟩ TransactionResult.Timeout none rfl (by decide) (by decide)).2.2.1,
   (callback_runs_after_cleanup
      ⟨1, [], some ⟨2, 50, 0⟩, 99, ⟨true, 0, []⟩, 0, 0, 1⟩
      ⟨2, 50, 0⟩ TransactionResult.Timeout none rfl (by decide) (by decide)).2.2.2.2
     [Op.opTick 0 true]⟩

end TFRCTPower
